import Mathlib

/-!
Verification of the diff-and-dispatch core of the agent-poker-skill repository.

Embedded components:
* `CardFormat` — `src/card-format.js` (`formatCard`, `formatCards`);
* `StateDiffer` — `diffStates` of `src/state-differ.js` (the version that
  prefixes every event with a `**[Hand #N]**` header and prints
  invested/behind chip information);
* `Differ0` — `diffStates` of the plain-string variant of the differ shipped
  in the repository (hand-started line `Hand #N — Your cards: …`, all-in line
  `<name> went all-in (<bet>)`);
* `Listener` — `buildSummary`, `processStateEvent` and `processClosedEvent`
  of the dispatch state machine (the variant with the hand-number-jump
  detection, turn dedup key and last-reported-hand counter).

Numbers (chips, bets, pots, hand numbers, seats) are embedded as `Nat`;
statuses and phases are the literal strings the JavaScript uses.
-/

namespace CardFormat

/-- `SUIT_MAP` of `src/card-format.js`: suit letter to Unicode glyph. -/
def suitGlyph (c : Char) : Option Char :=
  if c = 's' then some '♠'
  else if c = 'h' then some '♥'
  else if c = 'd' then some '♦'
  else if c = 'c' then some '♣'
  else none

/-- `formatCard` of `src/card-format.js`: a two-character card code whose
second character is a recognized suit letter becomes rank + glyph; anything
else is returned unchanged. -/
def formatCard (card : String) : String :=
  match card.data with
  | [r, s] =>
    match suitGlyph s with
    | some g => String.mk [r, g]
    | none => card
  | _ => card

/-- `formatCards` of `src/card-format.js`: format each code, join with one
space. -/
def formatCards (cards : List String) : String :=
  String.intercalate " " (cards.map formatCard)

end CardFormat

/-- One entry of a snapshot's `players` array. -/
structure Player where
  seat : Nat
  name : String
  chips : Nat
  bet : Nat
  invested : Nat
  status : String
  isCurrentActor : Bool
deriving DecidableEq, Repr

/-- One entry of a snapshot's `availableActions` array. -/
structure AvailAction where
  type : String
  amount : Option Nat
  minAmount : Option Nat
  maxAmount : Option Nat
deriving DecidableEq, Repr

/-- The part of `lastHandResult` the dispatch machine reads: the winner
seats. -/
structure LastHandResult where
  winners : List Nat
deriving DecidableEq, Repr

/-- A snapshot (`PlayerView`): the fields of the data model that the differ
and the dispatch machine read. -/
structure View where
  handNumber : Nat
  phase : String
  pot : Nat
  boardCards : List String
  yourSeat : Nat
  yourCards : List String
  yourChips : Nat
  isYourTurn : Bool
  canRebuy : Bool
  players : List Player
  availableActions : List AvailAction
  lastHandResult : Option LastHandResult
deriving DecidableEq, Repr

namespace StateDiffer

/-- Lookup in the seat-keyed `Map` built from `prev.players`: a JavaScript
`Map` keeps the last entry for a duplicated key, hence the fold. -/
def mapGet (players : List Player) (seat : Nat) : Option Player :=
  players.foldl (fun acc p => if p.seat = seat then some p else acc) none

/-- The per-opponent classifier of `diffStates` in `src/state-differ.js`:
the loop body for one `nextPlayer`, at most one event, priority order
all-in, folded, bet-size change, checked.  Returns `none` for the viewer's
own seat, for a seat absent from `prev`, and when no rule matches. -/
def classifyPlayer (hdr : String) (prev : View) (yourSeat : Nat)
    (np : Player) : Option String :=
  if np.seat = yourSeat then none
  else
    match mapGet prev.players np.seat with
    | none => none
    | some pp =>
      let pre := hdr ++ " " ++ np.name
      if pp.status ≠ "all_in" ∧ np.status = "all_in" then
        some (pre ++ (" went all-in (" ++ toString np.invested ++
          " invested · " ++ toString np.chips ++ " behind)"))
      else if pp.status ≠ "folded" ∧ np.status = "folded" then
        some (pre ++ " folded")
      else if np.bet > pp.bet then
        let chipInfo := " (" ++ toString np.invested ++ " invested · " ++
          toString np.chips ++ " behind)"
        let prevMaxBet := prev.players.foldl (fun m p => max m p.bet) 0
        if prevMaxBet = 0 ∨ pp.bet = prevMaxBet then
          if prevMaxBet > 0 ∧ np.bet > prevMaxBet then
            some (pre ++ (" raised to " ++ toString np.bet ++ chipInfo))
          else if prevMaxBet = 0 then
            some (pre ++ (" bet " ++ toString np.bet ++ chipInfo))
          else
            some (pre ++ (" called " ++ toString np.bet ++ chipInfo))
        else if np.bet > prevMaxBet then
          some (pre ++ (" raised to " ++ toString np.bet ++ chipInfo))
        else
          some (pre ++ (" called " ++ toString np.bet ++ chipInfo))
      else if pp.isCurrentActor = true ∧ np.isCurrentActor = false ∧
          np.bet = pp.bet ∧ np.status = "active" then
        some (pre ++ " checked")
      else none

/-- All opponent-action events of `diffStates`, in player iteration order. -/
def playerEvents (hdr : String) (prev next : View) : List String :=
  next.players.filterMap (classifyPlayer hdr prev next.yourSeat)

/-- The board-progression events of `diffStates` in `src/state-differ.js`:
flop on length 0 to at least 3, turn on exactly 3 to at least 4, river on
exactly 4 to at least 5. -/
def boardEvents (hdr : String) (prev next : View) : List String :=
  let prevLen := prev.boardCards.length
  let nextLen := next.boardCards.length
  (if prevLen = 0 ∧ nextLen ≥ 3 then
    [hdr ++ (" Flop: " ++ CardFormat.formatCards (next.boardCards.take 3) ++
      " | Pot: " ++ toString next.pot)]
  else []) ++
  (if prevLen ≤ 3 ∧ nextLen ≥ 4 ∧ prevLen < nextLen then
    if prevLen = 3 then
      [hdr ++ (" Turn: " ++
        CardFormat.formatCard (next.boardCards.getD 3 "") ++ " → " ++
        CardFormat.formatCards (next.boardCards.take 4) ++
        " | Pot: " ++ toString next.pot)]
    else []
  else []) ++
  (if prevLen ≤ 4 ∧ nextLen ≥ 5 ∧ prevLen < nextLen then
    if prevLen = 4 then
      [hdr ++ (" River: " ++
        CardFormat.formatCard (next.boardCards.getD 4 "") ++ " → " ++
        CardFormat.formatCards next.boardCards ++
        " | Pot: " ++ toString next.pot)]
    else []
  else []) ++ []

/-- The new-hand branch of `diffStates` in `src/state-differ.js`: when the
viewer holds cards, one hand-started event with the stack (the matching
player's chips, falling back to `yourChips`). -/
def newHandEvents (hdr : String) (next : View) : List String :=
  if next.yourCards ≠ [] then
    let cards := CardFormat.formatCards next.yourCards
    let stack := ((next.players.find? (fun p => p.seat = next.yourSeat)).map
      (fun p => p.chips)).getD next.yourChips
    [hdr ++ (" Your cards: " ++ cards ++ " · Stack: " ++ toString stack)]
  else []

/-- `diffStates` of `src/state-differ.js`. -/
def diffStates (prev : Option View) (next : View) : List String :=
  let hdr := "**[Hand #" ++ toString next.handNumber ++ "]**"
  match prev with
  | none => newHandEvents hdr next
  | some p =>
    if p.handNumber ≠ next.handNumber then newHandEvents hdr next
    else playerEvents hdr p next ++ boardEvents hdr p next

end StateDiffer

namespace Differ0

/-- The bet/raise/call classification of the plain-string differ variant
(`diffStates`, bet-changed branch): the four-way branch including the
believed-unreachable compatibility `called` case for a player already at the
previous maximum. -/
def betEvent (name : String) (prevMaxBet ppBet npBet : Nat) : String :=
  if prevMaxBet = 0 ∨ ppBet = prevMaxBet then
    if prevMaxBet > 0 ∧ npBet > prevMaxBet then
      name ++ (" raised to " ++ toString npBet)
    else if prevMaxBet = 0 then
      name ++ (" bet " ++ toString npBet)
    else
      name ++ (" called " ++ toString npBet)
  else if npBet > prevMaxBet then
    name ++ (" raised to " ++ toString npBet)
  else
    name ++ (" called " ++ toString npBet)

/-- `Math.max` over the previous players' bets (bets are naturals, and the
maximum is only taken with the player list non-empty). -/
def maxBet (players : List Player) : Nat :=
  players.foldl (fun m p => max m p.bet) 0

/-- The per-opponent classifier of the plain-string `diffStates` variant:
all-in (`<name> went all-in (<bet>)`), folded, bet-size change, checked. -/
def classifyPlayer (prev : View) (yourSeat : Nat) (np : Player) :
    Option String :=
  if np.seat = yourSeat then none
  else
    match StateDiffer.mapGet prev.players np.seat with
    | none => none
    | some pp =>
      if pp.status ≠ "all_in" ∧ np.status = "all_in" then
        some (np.name ++ (" went all-in (" ++ toString np.bet ++ ")"))
      else if pp.status ≠ "folded" ∧ np.status = "folded" then
        some (np.name ++ " folded")
      else if np.bet > pp.bet then
        some (betEvent np.name (maxBet prev.players) pp.bet np.bet)
      else if pp.isCurrentActor = true ∧ np.isCurrentActor = false ∧
          np.bet = pp.bet ∧ np.status = "active" then
        some (np.name ++ " checked")
      else none

/-- All opponent-action events of the plain-string differ, in player
iteration order. -/
def playerEvents (prev next : View) : List String :=
  next.players.filterMap (classifyPlayer prev next.yourSeat)

/-- The board-progression events of the plain-string differ. -/
def boardEvents (prev next : View) : List String :=
  let prevLen := prev.boardCards.length
  let nextLen := next.boardCards.length
  (if prevLen = 0 ∧ nextLen ≥ 3 then
    ["Flop: " ++ CardFormat.formatCards (next.boardCards.take 3) ++
      " | Pot: " ++ toString next.pot]
  else []) ++
  (if prevLen ≤ 3 ∧ nextLen ≥ 4 ∧ prevLen < nextLen then
    if prevLen = 3 then
      ["Turn: " ++ CardFormat.formatCard (next.boardCards.getD 3 "") ++
        " | Pot: " ++ toString next.pot]
    else []
  else []) ++
  (if prevLen ≤ 4 ∧ nextLen ≥ 5 ∧ prevLen < nextLen then
    if prevLen = 4 then
      ["River: " ++ CardFormat.formatCard (next.boardCards.getD 4 "") ++
        " | Pot: " ++ toString next.pot]
    else []
  else []) ++ []

/-- The new-hand event of the plain-string differ:
`Hand #N — Your cards: <formatted hole cards>`, emitted unconditionally on a
new hand. -/
def newHandEvents (next : View) : List String :=
  ["Hand #" ++ toString next.handNumber ++ (" — Your cards: " ++
    CardFormat.formatCards next.yourCards)]

/-- `diffStates`, plain-string variant. -/
def diffStates (prev : Option View) (next : View) : List String :=
  match prev with
  | none => newHandEvents next
  | some p =>
    if p.handNumber ≠ next.handNumber then newHandEvents next
    else playerEvents p next ++ boardEvents p next

end Differ0

/-- The spec's three-case bet/raise/call rule, for the refinement comparison
with `Differ0.betEvent`: `bet` when no prior bet existed, `raised to` when
the amount exceeds the previous maximum, `called` otherwise. -/
def specBetEvent (name : String) (prevMaxBet npBet : Nat) : String :=
  if prevMaxBet = 0 then name ++ (" bet " ++ toString npBet)
  else if npBet > prevMaxBet then name ++ (" raised to " ++ toString npBet)
  else name ++ (" called " ++ toString npBet)

/-- A tagged dispatch output of `processStateEvent` / `processClosedEvent`. -/
inductive Output where
  | EVENT (message : String) (handNumber : Nat)
  | YOUR_TURN (state : View) (summary : String)
  | HAND_RESULT (state : View) (handNumber : Nat)
  | REBUY_AVAILABLE (state : View) (handNumber : Nat)
  | WAITING_FOR_PLAYERS (state : View)
  | TABLE_CLOSED
deriving DecidableEq, Repr

/-- The mutable per-session context of the dispatch state machine. -/
structure Context where
  prevState : Option View
  prevPhase : Option String
  lastActionType : Option String
  lastTurnKey : Option String
  lastReportedHand : Nat
deriving DecidableEq, Repr

namespace Listener

/-- `ACTIVE_PHASES`: the phases in which a hand is in progress. -/
def ACTIVE_PHASES : List String := ["PREFLOP", "FLOP", "TURN", "RIVER"]

/-- Rendering of one available action inside `buildSummary`. -/
def renderAction (a : AvailAction) : String :=
  if a.type = "fold" ∨ a.type = "check" ∨ a.type = "call" then
    match a.amount with
    | some n => if n ≠ 0 then a.type ++ " " ++ toString n else a.type
    | none => a.type
  else
    match a.minAmount with
    | some mn =>
      a.type ++ " " ++ toString mn ++ "-" ++
        (match a.maxAmount with
         | some mx => toString mx
         | none => "undefined")
    | none => a.type

/-- `buildSummary`: the one-line decision summary for a YOUR_TURN output. -/
def buildSummary (view : View) : String :=
  let cards := if view.yourCards = [] then "??"
    else String.intercalate " " view.yourCards
  let board := if view.boardCards.length ≠ 0 then
      String.intercalate " " view.boardCards
    else ""
  let active := (view.players.filter (fun p => p.status = "active")).length
  let actions := String.intercalate ", " (view.availableActions.map renderAction)
  if board ≠ "" then
    view.phase ++ " | Board: " ++ board ++ " | " ++ cards ++ " | Pot:" ++
      toString view.pot ++ " | Stack:" ++ toString view.yourChips ++ " | " ++
      toString active ++ " active | Actions: " ++ actions
  else
    view.phase ++ " | " ++ cards ++ " | Pot:" ++ toString view.pot ++
      " | Stack:" ++ toString view.yourChips ++ " | " ++ toString active ++
      " active | Actions: " ++ actions

/-- Whether the hand number changed since the previous snapshot
(`handChanged` in `processStateEvent`). -/
def handChanged (view : View) (ctx : Context) : Bool :=
  match ctx.prevState with
  | none => false
  | some p => p.handNumber ≠ view.handNumber

/-- `ACTIVE_PHASES.has(prevPhase)` on the possibly-null previous phase. -/
def activePrev (prevPhase : Option String) : Bool :=
  match prevPhase with
  | some q => q ∈ ACTIVE_PHASES
  | none => false

/-- The turn dedup key string `handNumber:phase`. -/
def turnKeyStr (view : View) : String :=
  toString view.handNumber ++ ":" ++ view.phase

/-- The fast hand-transition (hand-number-jump) branch at the top of
`processStateEvent`: when the hand number changed and the old hand is not
yet reported, synthesize fold events for opponents still active at the end
of the old hand (when the old phase was an active betting phase) that are
not winners, then a HAND_RESULT for the old hand; returns the outputs and
the updated last-reported-hand counter. -/
def jumpBranch (view : View) (ctx : Context) : List Output × Nat :=
  match ctx.prevState with
  | none => ([], ctx.lastReportedHand)
  | some p =>
    if p.handNumber ≠ view.handNumber ∧ p.handNumber > ctx.lastReportedHand then
      let winners := ((view.lastHandResult.map
        (fun r => r.winners)).getD [])
      let prevHdr := "**[Hand #" ++ toString p.handNumber ++ "]**"
      let foldEvts :=
        if p.phase ∈ ACTIVE_PHASES then
          (p.players.filter (fun q => q.seat ≠ p.yourSeat ∧
            q.status = "active" ∧ q.seat ∉ winners)).map
            (fun q => Output.EVENT (prevHdr ++ " " ++ q.name ++ " folded")
              p.handNumber)
        else []
      (foldEvts ++ [Output.HAND_RESULT view p.handNumber], p.handNumber)
    else ([], ctx.lastReportedHand)

/-- `processStateEvent` of the dispatch state machine: one call of
`(view, context) → outputs`, with the context returned explicitly instead of
mutated in place. -/
def processStateEvent (view : View) (ctx : Context) : List Output × Context :=
  let jump := jumpBranch view ctx
  let diffOuts := (StateDiffer.diffStates ctx.prevState view).map
    (fun m => Output.EVENT m view.handNumber)
  let outs := jump.1 ++ diffOuts
  let prevPhase := ctx.prevPhase
  let lastAction := if some view.phase ≠ prevPhase then none
    else ctx.lastActionType
  let lastTurn := if some view.phase ≠ prevPhase then none
    else ctx.lastTurnKey
  let base : Context :=
    { prevState := some view, prevPhase := some view.phase,
      lastActionType := lastAction, lastTurnKey := lastTurn,
      lastReportedHand := jump.2 }
  if view.isYourTurn then
    let key := turnKeyStr view
    if some key ≠ lastTurn then
      (outs ++ [Output.YOUR_TURN view (buildSummary view)],
        { base with lastTurnKey := some key,
                    lastActionType := some "YOUR_TURN" })
    else (outs, base)
  else
    let base := { base with lastTurnKey := none }
    if handChanged view ctx = false ∧ activePrev prevPhase = true ∧
        (view.phase = "SHOWDOWN" ∨ view.phase = "WAITING") then
      if view.handNumber > jump.2 then
        if view.yourChips = 0 ∧ view.canRebuy = true then
          (outs ++ [Output.REBUY_AVAILABLE view view.handNumber],
            { base with lastActionType := some "REBUY_AVAILABLE",
                        lastReportedHand := view.handNumber })
        else
          (outs ++ [Output.HAND_RESULT view view.handNumber],
            { base with lastActionType := some "HAND_RESULT",
                        lastReportedHand := view.handNumber })
      else (outs, base)
    else if view.phase = "WAITING" ∧ view.players.length < 2 then
      if lastAction ≠ some "WAITING_FOR_PLAYERS" then
        (outs ++ [Output.WAITING_FOR_PLAYERS view],
          { base with lastActionType := some "WAITING_FOR_PLAYERS" })
      else (outs, base)
    else (outs, base)

/-- `processClosedEvent`: always one TABLE_CLOSED output. -/
def processClosedEvent : List Output := [Output.TABLE_CLOSED]

/-- All outputs of a run of `processStateEvent` over a snapshot sequence,
threading the context. -/
def runOutputs (ctx : Context) : List View → List Output
  | [] => []
  | v :: vs =>
    (processStateEvent v ctx).1 ++ runOutputs (processStateEvent v ctx).2 vs

/-- The hand numbers of the hand-completion outputs (HAND_RESULT or
REBUY_AVAILABLE) in an output list, in emission order. -/
def completions (outs : List Output) : List Nat :=
  outs.filterMap fun o =>
    match o with
    | Output.HAND_RESULT _ h => some h
    | Output.REBUY_AVAILABLE _ h => some h
    | _ => none

/-- Whether an output list contains a YOUR_TURN output. -/
def containsYourTurn (outs : List Output) : Bool :=
  outs.any fun o =>
    match o with
    | Output.YOUR_TURN _ _ => true
    | _ => false

/-- Whether an output list contains a WAITING_FOR_PLAYERS output. -/
def containsWaiting (outs : List Output) : Bool :=
  outs.any fun o =>
    match o with
    | Output.WAITING_FOR_PLAYERS _ => true
    | _ => false

end Listener

/-! Concrete fixtures used by the witness and counterexample theorems. -/

/-- The context `main` creates at session start. -/
def initialContext : Context :=
  { prevState := none, prevPhase := none, lastActionType := none,
    lastTurnKey := none, lastReportedHand := 0 }

/-- A baseline snapshot: hand 1, preflop, viewer at seat 0 holding A♠ K♥. -/
def baseView : View :=
  { handNumber := 1, phase := "PREFLOP", pot := 0, boardCards := [],
    yourSeat := 0, yourCards := ["As", "Kh"], yourChips := 100,
    isYourTurn := false, canRebuy := false, players := [],
    availableActions := [], lastHandResult := none }

/-- An opponent at seat 1 before acting. -/
def oppBefore : Player :=
  { seat := 1, name := "opp", chips := 50, bet := 0, invested := 0,
    status := "active", isCurrentActor := false }

/-- The viewer's own player record at seat 0. -/
def mePlayer : Player :=
  { seat := 0, name := "me", chips := 100, bet := 0, invested := 0,
    status := "active", isCurrentActor := false }

/-- Flop-example previous snapshot: empty board. -/
def prevFlop : View := { baseView with players := [mePlayer, oppBefore] }

/-- Flop-example next snapshot: board A♠ 7♣ 2♦, pot 42. -/
def nextFlop : View :=
  { prevFlop with boardCards := ["As", "7c", "2d"], pot := 42 }

/-- A snapshot where it's the viewer's turn (hand 1, PREFLOP). -/
def turnView : View := { baseView with isYourTurn := true }

/-- The opponent gone all-in at seat 1 (bet 50). -/
def oppAllIn : Player :=
  { seat := 1, name := "opp", chips := 0, bet := 50, invested := 50,
    status := "all_in", isCurrentActor := false }

/-- Previous snapshot for the all-in witness. -/
def prevAllIn : View := { baseView with players := [mePlayer, oppBefore] }

/-- Next snapshot for the all-in witness. -/
def nextAllIn : View := { baseView with players := [mePlayer, oppAllIn] }

/-- The opponent as current actor (pre-check). -/
def oppActor : Player := { oppBefore with isCurrentActor := true }

/-- Previous snapshot for the checked witness: opponent is current actor. -/
def prevCheck : View := { baseView with players := [mePlayer, oppActor] }

/-- Hand-3 flop snapshot for dispatch traces. -/
def h3Flop : View :=
  { baseView with handNumber := 3, phase := "FLOP", yourCards := [] }

/-- Hand-3 waiting snapshot (hand just ended at showdownless WAITING). -/
def h3Waiting : View :=
  { baseView with handNumber := 3, phase := "WAITING", yourCards := [] }

/-- Hand-4 preflop snapshot. -/
def h4Preflop : View :=
  { baseView with handNumber := 4, phase := "PREFLOP", yourCards := [] }

/-- Hand-5 flop snapshot. -/
def h5Flop : View :=
  { baseView with handNumber := 5, phase := "FLOP", yourCards := [] }

/-- The WAITING-alone snapshot for the WAITING_FOR_PLAYERS theorems. -/
def aloneView : View :=
  { baseView with handNumber := 5, phase := "WAITING", yourCards := [], players := [] }

/-- A context in which the previous snapshot was hand 5 on the FLOP and hand
5 is already reported: the phase-based hand-end branch exits before the
alone-at-table check. -/
def preemptCtx : Context :=
  { prevState := some h5Flop, prevPhase := some "FLOP", lastActionType := none,
    lastTurnKey := none, lastReportedHand := 5 }

/-- A context about to observe the hand-number jump 4 to 5 with hand 4
unreported. -/
def jumpCtx : Context :=
  { prevState := some h4Preflop, prevPhase := some "PREFLOP",
    lastActionType := none, lastTurnKey := none, lastReportedHand := 3 }

/-- A context about to observe the phase-based end of hand 3. -/
def endCtx : Context :=
  { prevState := some h3Flop, prevPhase := some "FLOP",
    lastActionType := none, lastTurnKey := none, lastReportedHand := 0 }

/-! Helper lemmas. -/

/-- Seat lookup in the previous-player map finds the player itself when
seats are unique. -/
theorem mapGet_self (players : List Player)
    (hu : players.Pairwise (fun a b => a.seat ≠ b.seat)) (p : Player)
    (hp : p ∈ players) : StateDiffer.mapGet players p.seat = some p := by
  have aux : ∀ (l : List Player) (acc : Option Player),
      (∀ q ∈ l, q.seat ≠ p.seat) →
      l.foldl (fun acc q => if q.seat = p.seat then some q else acc) acc = acc := by
    intro l
    induction l with
    | nil => intro acc _; rfl
    | cons q t ih =>
      intro acc hn
      have hq : q.seat ≠ p.seat := hn q (List.mem_cons_self q t)
      simp only [List.foldl_cons, if_neg hq]
      exact ih acc (fun r hr => hn r (List.mem_cons_of_mem q hr))
  induction players with
  | nil => cases hp
  | cons q t ih =>
    rcases List.mem_cons.mp hp with heq | hmem
    · subst heq
      have hrest : ∀ r ∈ t, r.seat ≠ p.seat := by
        intro r hr
        exact fun h => (List.pairwise_cons.mp hu).1 r hr h.symm
      unfold StateDiffer.mapGet
      simp only [List.foldl_cons, if_pos rfl]
      exact aux t (some p) hrest
    · have hq : q.seat ≠ p.seat := by
        intro h
        exact (List.pairwise_cons.mp hu).1 p hmem h
      unfold StateDiffer.mapGet at ih ⊢
      simp only [List.foldl_cons, if_neg hq]
      exact ih (List.pairwise_cons.mp hu).2 hmem

/-! ## Claim theorems -/

/-- Claim C10: `formatCard` is idempotent — a formatted card has a suit
glyph in second position, which is not a recognized suit letter, so a second
application returns it unchanged; inputs not of the rank-plus-suit shape are
returned unchanged in the first place. -/
theorem formatCard_idempotent (c : String) :
    CardFormat.formatCard (CardFormat.formatCard c) = CardFormat.formatCard c := by
  obtain ⟨l⟩ := c
  match l with
  | [] => rfl
  | [r] => rfl
  | r :: s :: d :: t => rfl
  | [r, s] =>
    rcases hg : CardFormat.suitGlyph s with _ | g
    · show CardFormat.formatCard (CardFormat.formatCard (String.mk [r, s])) = _
      unfold CardFormat.formatCard
      simp [hg]
    · have hgn : CardFormat.suitGlyph g = none := by
        unfold CardFormat.suitGlyph at hg
        split_ifs at hg <;> rcases hg with ⟨⟩ <;> decide
      show CardFormat.formatCard (CardFormat.formatCard (String.mk [r, s])) = _
      unfold CardFormat.formatCard
      simp [hg, hgn]

/-- Claim C4: on a new hand (no previous snapshot, or a changed hand number)
with non-empty hole cards, the plain-string differ emits exactly the one
hand-started event naming the hand number and the formatted hole cards, and
nothing else. -/
theorem diffStates_new_hand (prev : Option View) (next : View)
    (hnew : prev = none ∨ ∃ p, prev = some p ∧ p.handNumber ≠ next.handNumber)
    (hcards : next.yourCards ≠ []) :
    Differ0.diffStates prev next =
      ["Hand #" ++ toString next.handNumber ++
        (" — Your cards: " ++ CardFormat.formatCards next.yourCards)] := by
  rcases hnew with h | ⟨p, hp, hne⟩
  · subst h; rfl
  · subst hp
    simp [Differ0.diffStates, Differ0.newHandEvents, hne]

/-- Witness for C4 at the spec's concrete example: `diff(null, hand 1 with
hole cards As Kh)` is exactly the single event `Hand #1 — Your cards: A♠ K♥`. -/
theorem diffStates_new_hand_witness :
    Differ0.diffStates none baseView = ["Hand #1 — Your cards: A♠ K♥"] := by
  rw [diffStates_new_hand none baseView (Or.inl rfl) (by decide)]
  decide

/-- Claim C5: when an opponent's status flips to `all_in`, the plain-string
differ's per-player classifier yields exactly the one event
`<name> went all-in (<bet>)` with the player's current bet, regardless of
any simultaneous bet increase; and under an unchanged hand number the differ
output is precisely one classifier event per player followed by the board
events, so no second event can fire for that player. -/
theorem classifyPlayer_all_in (prev : View) (yourSeat : Nat) (np pp : Player)
    (hseat : np.seat ≠ yourSeat)
    (hget : StateDiffer.mapGet prev.players np.seat = some pp)
    (hpp : pp.status ≠ "all_in") (hnp : np.status = "all_in") :
    Differ0.classifyPlayer prev yourSeat np =
      some (np.name ++ (" went all-in (" ++ toString np.bet ++ ")"))
  ∧ ∀ (p next : View), p.handNumber = next.handNumber →
      Differ0.diffStates (some p) next =
        next.players.filterMap (Differ0.classifyPlayer p next.yourSeat) ++
          Differ0.boardEvents p next := by
  constructor
  · unfold Differ0.classifyPlayer
    rw [if_neg hseat, hget]
    simp [hpp, hnp]
  · intro p next h
    simp [Differ0.diffStates, Differ0.playerEvents, h]

/-- Witness for C5: the opponent at seat 1 moving to `all_in` with bet 50
yields exactly `opp went all-in (50)`. -/
theorem classifyPlayer_all_in_witness :
    Differ0.classifyPlayer prevAllIn 0 oppAllIn = some "opp went all-in (50)"
  ∧ Differ0.diffStates (some prevAllIn) nextAllIn =
      ["opp went all-in (50)"] := by
  have h := classifyPlayer_all_in prevAllIn 0 oppAllIn oppBefore
    (by decide) (by decide) (by decide) (by decide)
  constructor
  · rw [h.1]; decide
  · rw [h.2 prevAllIn nextAllIn rfl]; decide

/-- Claim C3: for any opponent whose bet strictly increased, the implemented
four-branch bet/raise/call classification agrees with the spec's three-case
rule, and the compatibility branch (previous bet already at the previous
maximum, reported again as `called`) is never taken — its path condition is
contradictory. -/
theorem betEvent_matches_spec (name : String) (prevMaxBet ppBet npBet : Nat)
    (h : npBet > ppBet) :
    Differ0.betEvent name prevMaxBet ppBet npBet =
      specBetEvent name prevMaxBet npBet
  ∧ ¬(prevMaxBet ≠ 0 ∧ ppBet = prevMaxBet ∧ ¬npBet > prevMaxBet) := by
  constructor
  · unfold Differ0.betEvent specBetEvent
    split_ifs with h1 h2 h3 h4 h5 <;> first | rfl | omega
  · rintro ⟨h0, he, hng⟩
    omega

/-- Witness for C3 at a concrete call: previous max 10, player's previous
bet 5, new bet 10 classifies as `called 10` under both the implementation
and the spec rule. -/
theorem betEvent_matches_spec_witness :
    Differ0.betEvent "opp" 10 5 10 = specBetEvent "opp" 10 10
  ∧ Differ0.betEvent "opp" 10 5 10 = "opp called 10" := by
  refine ⟨(betEvent_matches_spec "opp" 10 5 10 (by decide)).1, by decide⟩

/-- Claim C7: on identical consecutive snapshots (same hand, all fields
equal, seats unique per the data-model invariant), the differ emits no
event at all. -/
theorem diffStates_identical (s : View)
    (hu : s.players.Pairwise (fun a b => a.seat ≠ b.seat)) :
    StateDiffer.diffStates (some s) s = [] := by
  have hplayers : ∀ hdr, StateDiffer.playerEvents hdr s s = [] := by
    intro hdr
    unfold StateDiffer.playerEvents
    rw [List.filterMap_eq_nil]
    intro p hp
    unfold StateDiffer.classifyPlayer
    by_cases hps : p.seat = s.yourSeat
    · rw [if_pos hps]
    · rw [if_neg hps, mapGet_self s.players hu p hp]
      simp
      intro h1 h2
      simp [h1] at h2
  have hboard : ∀ hdr, StateDiffer.boardEvents hdr s s = [] := by
    intro hdr
    simp only [StateDiffer.boardEvents]
    split_ifs <;> first | rfl | omega
  simp [StateDiffer.diffStates, hplayers, hboard]

/-- Witness for C7: a concrete two-player snapshot diffed against itself
yields no events. -/
theorem diffStates_identical_witness :
    StateDiffer.diffStates (some prevFlop) prevFlop = [] :=
  diffStates_identical prevFlop (by decide)

/-- Length of both sides of an equal-prefix string equation. -/
theorem append_len_eq {p a b : String} (h : p ++ a = p ++ b) :
    a.length = b.length := by
  have hl := congrArg String.length h
  simp only [String.length_append] at hl
  omega

/-- Claim C6: with the hand number unchanged, the differ output is the
player-action events followed by exactly the board events dictated by the
length transitions — flop iff 0 to at least 3, turn iff exactly 3 to at
least 4, river iff exactly 4 to at least 5; earlier streets are never
re-described. -/
theorem diffStates_board_transitions (prev next : View)
    (h : prev.handNumber = next.handNumber) :
    StateDiffer.diffStates (some prev) next =
      StateDiffer.playerEvents
        ("**[Hand #" ++ toString next.handNumber ++ "]**") prev next ++
      ((if prev.boardCards.length = 0 ∧ next.boardCards.length ≥ 3 then
          ["**[Hand #" ++ toString next.handNumber ++ "]**" ++
            (" Flop: " ++ CardFormat.formatCards (next.boardCards.take 3) ++
              " | Pot: " ++ toString next.pot)]
        else []) ++
       (if prev.boardCards.length = 3 ∧ next.boardCards.length ≥ 4 then
          ["**[Hand #" ++ toString next.handNumber ++ "]**" ++
            (" Turn: " ++ CardFormat.formatCard (next.boardCards.getD 3 "") ++
              " → " ++ CardFormat.formatCards (next.boardCards.take 4) ++
              " | Pot: " ++ toString next.pot)]
        else []) ++
       (if prev.boardCards.length = 4 ∧ next.boardCards.length ≥ 5 then
          ["**[Hand #" ++ toString next.handNumber ++ "]**" ++
            (" River: " ++ CardFormat.formatCard (next.boardCards.getD 4 "") ++
              " → " ++ CardFormat.formatCards next.boardCards ++
              " | Pot: " ++ toString next.pot)]
        else [])) := by
  have hb : StateDiffer.boardEvents
      ("**[Hand #" ++ toString next.handNumber ++ "]**") prev next =
      (if prev.boardCards.length = 0 ∧ next.boardCards.length ≥ 3 then
          ["**[Hand #" ++ toString next.handNumber ++ "]**" ++
            (" Flop: " ++ CardFormat.formatCards (next.boardCards.take 3) ++
              " | Pot: " ++ toString next.pot)]
        else []) ++
       (if prev.boardCards.length = 3 ∧ next.boardCards.length ≥ 4 then
          ["**[Hand #" ++ toString next.handNumber ++ "]**" ++
            (" Turn: " ++ CardFormat.formatCard (next.boardCards.getD 3 "") ++
              " → " ++ CardFormat.formatCards (next.boardCards.take 4) ++
              " | Pot: " ++ toString next.pot)]
        else []) ++
       (if prev.boardCards.length = 4 ∧ next.boardCards.length ≥ 5 then
          ["**[Hand #" ++ toString next.handNumber ++ "]**" ++
            (" River: " ++ CardFormat.formatCard (next.boardCards.getD 4 "") ++
              " → " ++ CardFormat.formatCards next.boardCards ++
              " | Pot: " ++ toString next.pot)]
        else []) := by
    simp only [StateDiffer.boardEvents, List.append_nil]
    split_ifs <;> first | rfl | omega
  simp only [StateDiffer.diffStates, h]
  rw [if_neg (by simp), hb]

/-- Witness for C6 at the spec's flop example: previous board empty, next
board A♠ 7♣ 2♦ with pot 42 yields exactly one event whose text carries
`Flop: A♠ 7♣ 2♦ | Pot: 42`. -/
theorem diffStates_board_transitions_witness :
    StateDiffer.diffStates (some prevFlop) nextFlop =
      ["**[Hand #1]** " ++ "Flop: A♠ 7♣ 2♦ | Pot: 42"] := by
  rw [diffStates_board_transitions prevFlop nextFlop rfl]
  decide

/-- Claim C8: the per-player classifier of `src/state-differ.js` emits the
`checked` event exactly when the player was the current actor, no longer is,
the bet is unchanged and the status is `active` (the higher-priority rules
cannot fire under those conditions); and the viewer's own seat never yields
any event. -/
theorem classifyPlayer_checked_iff (hdr : String) (prev : View)
    (yourSeat : Nat) (np : Player) :
    (StateDiffer.classifyPlayer hdr prev yourSeat np =
        some ((hdr ++ " " ++ np.name) ++ " checked") ↔
      np.seat ≠ yourSeat ∧
        ∃ pp, StateDiffer.mapGet prev.players np.seat = some pp ∧
          pp.isCurrentActor = true ∧ np.isCurrentActor = false ∧
          np.bet = pp.bet ∧ np.status = "active")
  ∧ (np.seat = yourSeat →
      StateDiffer.classifyPlayer hdr prev yourSeat np = none) := by
  constructor
  · constructor
    · intro hcl
      simp only [StateDiffer.classifyPlayer] at hcl
      split at hcl
      · exact absurd hcl (by simp)
      · rename_i hs
        split at hcl
        · exact absurd hcl (by simp)
        · rename_i pp hget
          refine ⟨hs, pp, hget, ?_⟩
          split at hcl
          · exfalso
            have hlen := append_len_eq (Option.some.inj hcl)
            simp only [String.length_append] at hlen
            have e1 : (" went all-in (" : String).length = 14 := rfl
            have e2 : (" invested · " : String).length = 12 := rfl
            have e3 : (" behind)" : String).length = 8 := rfl
            have e4 : (" checked" : String).length = 8 := rfl
            omega
          · split at hcl
            · exfalso
              have hlen := append_len_eq (Option.some.inj hcl)
              have e1 : (" folded" : String).length = 7 := rfl
              have e2 : (" checked" : String).length = 8 := rfl
              omega
            · split at hcl
              · exfalso
                split_ifs at hcl <;>
                · have hlen := append_len_eq (Option.some.inj hcl)
                  simp only [String.length_append] at hlen
                  have e1 : (" raised to " : String).length = 11 := rfl
                  have e2 : (" bet " : String).length = 5 := rfl
                  have e3 : (" called " : String).length = 8 := rfl
                  have e4 : (" (" : String).length = 2 := rfl
                  have e5 : (" invested · " : String).length = 12 := rfl
                  have e6 : (" behind)" : String).length = 8 := rfl
                  have e7 : (" checked" : String).length = 8 := rfl
                  omega
              · split at hcl
                · rename_i h4
                  exact h4
                · exact absurd hcl (by simp)
    · rintro ⟨hs, pp, hget, ha, hna, hb, hst⟩
      simp only [StateDiffer.classifyPlayer]
      rw [if_neg hs, hget]
      simp [hst, ha, hna, hb]
  · intro hs
    simp only [StateDiffer.classifyPlayer]
    rw [if_pos hs]

/-- Witness for C8: the opponent who was current actor and checked yields
exactly the checked event, and the viewer's own record yields nothing. -/
theorem classifyPlayer_checked_iff_witness :
    StateDiffer.classifyPlayer "**[Hand #1]**" prevCheck 0 oppBefore =
      some "**[Hand #1]** opp checked"
  ∧ StateDiffer.classifyPlayer "**[Hand #1]**" prevCheck 0 mePlayer = none := by
  constructor
  · have h := (classifyPlayer_checked_iff "**[Hand #1]**" prevCheck 0
      oppBefore).1.mpr ⟨by decide, oppActor, by decide, rfl, rfl, rfl, rfl⟩
    rw [h]
    decide
  · exact (classifyPlayer_checked_iff "**[Hand #1]**" prevCheck 0
      mePlayer).2 rfl

/-- No YOUR_TURN output among the jump-branch and differ EVENT outputs. -/
theorem containsYourTurn_base (v : View) (c : Context) :
    Listener.containsYourTurn ((Listener.jumpBranch v c).1 ++
      (StateDiffer.diffStates c.prevState v).map
        (fun m => Output.EVENT m v.handNumber)) = false := by
  unfold Listener.containsYourTurn Listener.jumpBranch
  rcases c.prevState with _ | p <;>
    simp [List.any_append, List.any_map, Function.comp]
  split_ifs <;> simp [List.any_append, List.any_map, Function.comp]
  all_goals rintro x (⟨a, hP, rfl⟩ | rfl) <;> rfl

/-- No WAITING_FOR_PLAYERS output among the jump-branch and differ EVENT
outputs. -/
theorem containsWaiting_base (v : View) (c : Context) :
    Listener.containsWaiting ((Listener.jumpBranch v c).1 ++
      (StateDiffer.diffStates c.prevState v).map
        (fun m => Output.EVENT m v.handNumber)) = false := by
  unfold Listener.containsWaiting Listener.jumpBranch
  rcases c.prevState with _ | p <;>
    simp [List.any_append, List.any_map, Function.comp]
  split_ifs <;> simp [List.any_append, List.any_map, Function.comp]
  all_goals rintro x (⟨a, hP, rfl⟩ | rfl) <;> rfl

/-- The stored previous phase after a call is the snapshot's phase. -/
theorem prevPhase_after (v : View) (c : Context) :
    ((Listener.processStateEvent v c).2).prevPhase = some v.phase := by
  simp only [Listener.processStateEvent]
  split_ifs <;> rfl

/-- The turn dedup key after a call: the snapshot's key when it was the
viewer's turn, cleared otherwise. -/
theorem lastTurnKey_after (v : View) (c : Context) :
    ((Listener.processStateEvent v c).2).lastTurnKey =
      if v.isYourTurn = true then some (Listener.turnKeyStr v) else none := by
  simp only [Listener.processStateEvent]
  split_ifs <;> simp_all

/-- A call yields a YOUR_TURN output exactly when the snapshot is the
viewer's turn and the (possibly phase-cleared) stored key differs from the
snapshot's key. -/
theorem containsYourTurn_eval (v : View) (c : Context) :
    Listener.containsYourTurn (Listener.processStateEvent v c).1 =
      (v.isYourTurn && decide (some (Listener.turnKeyStr v) ≠
        (if some v.phase ≠ c.prevPhase then none else c.lastTurnKey))) := by
  have hbase := containsYourTurn_base v c
  simp only [Listener.processStateEvent]
  split_ifs <;>
    simp_all [Listener.containsYourTurn, List.any_append]

/-- Claim C2: two consecutive your-turn snapshots with the same hand number
and phase yield YOUR_TURN only on the first call (the second is suppressed
by the stored key); an intervening not-your-turn call clears the key, so a
later your-turn snapshot with the same key fires again. -/
theorem processStateEvent_turn_dedup (c : Context) (v1 v2 vmid : View)
    (h1 : v1.isYourTurn = true) (h2 : v2.isYourTurn = true)
    (hh : v1.handNumber = v2.handNumber) (hp : v1.phase = v2.phase)
    (hm : vmid.isYourTurn = false) :
    (c.lastTurnKey = none →
      Listener.containsYourTurn (Listener.processStateEvent v1 c).1 = true)
  ∧ Listener.containsYourTurn
      (Listener.processStateEvent v2 (Listener.processStateEvent v1 c).2).1 = false
  ∧ Listener.containsYourTurn
      (Listener.processStateEvent v2
        (Listener.processStateEvent vmid
          (Listener.processStateEvent v1 c).2).2).1 = true := by
  have hkey : Listener.turnKeyStr v1 = Listener.turnKeyStr v2 := by
    unfold Listener.turnKeyStr
    rw [hh, hp]
  refine ⟨?_, ?_, ?_⟩
  · intro hnone
    simp [containsYourTurn_eval, h1, hnone]
  · rw [containsYourTurn_eval, prevPhase_after, lastTurnKey_after, h1, hp,
      hkey]
    simp [h2]
  · rw [containsYourTurn_eval, prevPhase_after, lastTurnKey_after, hm]
    simp [h2]

/-- Witness for C2: from a fresh context, the first your-turn snapshot
fires, the identical second one is suppressed, and after a not-your-turn
snapshot clears the key the same snapshot fires again. -/
theorem processStateEvent_turn_dedup_witness :
    Listener.containsYourTurn
      (Listener.processStateEvent turnView initialContext).1 = true
  ∧ Listener.containsYourTurn
      (Listener.processStateEvent turnView
        (Listener.processStateEvent turnView initialContext).2).1 = false
  ∧ Listener.containsYourTurn
      (Listener.processStateEvent turnView
        (Listener.processStateEvent baseView
          (Listener.processStateEvent turnView initialContext).2).2).1 = true := by
  have h := processStateEvent_turn_dedup initialContext turnView turnView
    baseView rfl rfl rfl rfl rfl
  exact ⟨h.1 rfl, h.2.1, h.2.2⟩

/-- WAITING_FOR_PLAYERS containment distributes over append. -/
theorem containsWaiting_append (a b : List Output) :
    Listener.containsWaiting (a ++ b) =
      (Listener.containsWaiting a || Listener.containsWaiting b) := by
  simp [Listener.containsWaiting, List.any_append]

/-- Counterexample to C9 as stated: a WAITING snapshot with fewer than two
seated players, processed in a context whose previous phase was an active
betting phase (the phase-based hand-end branch returns first), yields no
WAITING_FOR_PLAYERS even though it was not the last reported non-turn
action. -/
theorem waiting_for_players_preempted :
    aloneView.phase = "WAITING" ∧ aloneView.players.length < 2 ∧
    aloneView.isYourTurn = false ∧
    preemptCtx.lastActionType ≠ some "WAITING_FOR_PLAYERS" ∧
    Listener.containsWaiting
      (Listener.processStateEvent aloneView preemptCtx).1 = false := by
  refine ⟨rfl, by decide, rfl, by decide, ?_⟩
  decide

/-- Claim C9 (amended): provided the snapshot is not the viewer's turn and
the call does not take the phase-based hand-end exit, a WAITING snapshot
with fewer than two seated players appends WAITING_FOR_PLAYERS unless it was
already the last reported non-turn action; the output is suppressed on
repeated identical WAITING snapshots, and fires again once the previous
phase moved away from WAITING (which clears the action key). -/
theorem waiting_for_players_dedup (v : View) (c : Context)
    (hw : v.phase = "WAITING") (hp : v.players.length < 2)
    (ht : v.isYourTurn = false) :
    (¬(Listener.handChanged v c = false ∧
        Listener.activePrev c.prevPhase = true) →
      c.lastActionType ≠ some "WAITING_FOR_PLAYERS" →
      Listener.containsWaiting (Listener.processStateEvent v c).1 = true ∧
      ((Listener.processStateEvent v c).2).lastActionType =
        some "WAITING_FOR_PLAYERS")
  ∧ (c.prevPhase = some "WAITING" →
      c.lastActionType = some "WAITING_FOR_PLAYERS" →
      Listener.containsWaiting (Listener.processStateEvent v c).1 = false)
  ∧ (∀ q, c.prevPhase = some q → q ≠ "WAITING" →
      Listener.activePrev (some q) = false →
      Listener.containsWaiting (Listener.processStateEvent v c).1 = true) := by
  have hbase := containsWaiting_base v c
  rw [containsWaiting_append] at hbase
  have hj : Listener.containsWaiting (Listener.jumpBranch v c).1 = false := by
    rcases Bool.or_eq_false_iff.mp hbase with ⟨h, _⟩
    exact h
  have hd : Listener.containsWaiting
      ((StateDiffer.diffStates c.prevState v).map
        (fun m => Output.EVENT m v.handNumber)) = false := by
    rcases Bool.or_eq_false_iff.mp hbase with ⟨_, h⟩
    exact h
  refine ⟨?_, ?_, ?_⟩
  · intro hng hlat
    simp only [Listener.processStateEvent]
    split_ifs <;>
      first
        | (rw [containsWaiting_append, containsWaiting_append, hj, hd]; rfl)
        | (rw [containsWaiting_append, hj, hd]; rfl)
        | (refine ⟨?_, rfl⟩
           rw [containsWaiting_append, containsWaiting_append, hj, hd]
           rfl)
        | simp_all [Listener.activePrev, Listener.ACTIVE_PHASES]
  · intro hpp hlat
    simp only [Listener.processStateEvent]
    split_ifs <;>
      first
        | (rw [containsWaiting_append, containsWaiting_append, hj, hd]; rfl)
        | (rw [containsWaiting_append, hj, hd]; rfl)
        | simp_all [Listener.activePrev, Listener.ACTIVE_PHASES]
  · intro q hq hqw hqa
    simp only [Listener.processStateEvent]
    split_ifs <;>
      first
        | (rw [containsWaiting_append, containsWaiting_append, hj, hd]; rfl)
        | (rw [containsWaiting_append, hj, hd]; rfl)
        | simp_all [Listener.activePrev, Listener.ACTIVE_PHASES]

/-- Witness for C9 (amended): from a fresh context a lone WAITING snapshot
fires WAITING_FOR_PLAYERS and records it as the last action. -/
theorem waiting_for_players_dedup_witness :
    Listener.containsWaiting
      (Listener.processStateEvent aloneView initialContext).1 = true
  ∧ ((Listener.processStateEvent aloneView initialContext).2).lastActionType =
      some "WAITING_FOR_PLAYERS" :=
  (waiting_for_players_dedup aloneView initialContext rfl (by decide) rfl).1
    (by decide) (by decide)

/-- Hand-completion hand numbers distribute over append. -/
theorem completions_append (a b : List Output) :
    Listener.completions (a ++ b) =
      Listener.completions a ++ Listener.completions b := by
  simp [Listener.completions, List.filterMap_append]

/-- EVENT outputs contribute no hand-completion. -/
theorem completions_map_events {α : Type} (l : List α) (f : α → String)
    (n : Nat) :
    Listener.completions (l.map (fun a => Output.EVENT (f a) n)) = [] := by
  unfold Listener.completions
  rw [List.filterMap_eq_nil]
  intro o ho
  rcases List.mem_map.mp ho with ⟨m, hm, rfl⟩
  rfl

/-- The differ EVENT outputs contribute no hand-completion. -/
theorem completions_diff_events (s : Option View) (v : View) :
    Listener.completions ((StateDiffer.diffStates s v).map
      (fun m => Output.EVENT m v.handNumber)) = [] :=
  completions_map_events (StateDiffer.diffStates s v) (fun m => m) v.handNumber

/-- When the hand number did not change, the jump branch does nothing. -/
theorem handChanged_false_jump (v : View) (c : Context)
    (h : Listener.handChanged v c = false) :
    Listener.jumpBranch v c = ([], c.lastReportedHand) := by
  unfold Listener.jumpBranch
  unfold Listener.handChanged at h
  rcases hps : c.prevState with _ | p
  · rfl
  · rw [hps] at h
    dsimp only at h ⊢
    rw [if_neg]
    rintro ⟨hne, _⟩
    simp at h
    exact hne h

/-- The jump branch either does nothing, or (when the hand number changed
and the old hand is unreported) emits exactly one completion, for a hand
newer than the reported counter, and advances the counter to it. -/
theorem jumpBranch_completions (v : View) (c : Context) :
    (Listener.completions (Listener.jumpBranch v c).1 = [] ∧
      (Listener.jumpBranch v c).2 = c.lastReportedHand) ∨
    (∃ h, Listener.completions (Listener.jumpBranch v c).1 = [h] ∧
      c.lastReportedHand < h ∧ (Listener.jumpBranch v c).2 = h ∧
      Listener.handChanged v c = true) := by
  unfold Listener.jumpBranch
  rcases hps : c.prevState with _ | p
  · exact Or.inl ⟨rfl, rfl⟩
  · dsimp only
    split_ifs with hcond hact
    · right
      refine ⟨p.handNumber, ?_, hcond.2, rfl, ?_⟩
      · rw [completions_append, completions_map_events]
        rfl
      · unfold Listener.handChanged
        rw [hps]
        simp [hcond.1]
    · right
      refine ⟨p.handNumber, ?_, hcond.2, rfl, ?_⟩
      · rfl
      · unfold Listener.handChanged
        rw [hps]
        simp [hcond.1]
    · exact Or.inl ⟨rfl, rfl⟩

/-- One call of the dispatch machine emits either no hand-completion (and
leaves the reported-hand counter unchanged) or exactly one, for a hand
strictly newer than the counter, advancing the counter to it. -/
theorem processStateEvent_completions (v : View) (c : Context) :
    (Listener.completions (Listener.processStateEvent v c).1 = [] ∧
      ((Listener.processStateEvent v c).2).lastReportedHand =
        c.lastReportedHand) ∨
    (∃ h, Listener.completions (Listener.processStateEvent v c).1 = [h] ∧
      c.lastReportedHand < h ∧
      ((Listener.processStateEvent v c).2).lastReportedHand = h) := by
  have hdiff := completions_diff_events c.prevState v
  rcases jumpBranch_completions v c with ⟨hj1, hj2⟩ | ⟨h, hj1, hlt, hj2, hch⟩
  · have h0 : Listener.completions ((Listener.jumpBranch v c).1 ++
        (StateDiffer.diffStates c.prevState v).map
          (fun m => Output.EVENT m v.handNumber)) = [] := by
      rw [completions_append, hj1, hdiff]
      rfl
    have hX : ∀ t, Listener.completions (((Listener.jumpBranch v c).1 ++
        (StateDiffer.diffStates c.prevState v).map
          (fun m => Output.EVENT m v.handNumber)) ++ t) =
        Listener.completions t := by
      intro t
      rw [completions_append, h0]
      rfl
    simp only [Listener.processStateEvent]
    split_ifs <;>
      first
        | exact Or.inl ⟨h0, hj2⟩
        | (left
           refine ⟨?_, hj2⟩
           rw [hX]
           rfl)
        | (right
           refine ⟨v.handNumber, ?_, by omega, rfl⟩
           rw [hX]
           rfl)
  · have h0 : Listener.completions ((Listener.jumpBranch v c).1 ++
        (StateDiffer.diffStates c.prevState v).map
          (fun m => Output.EVENT m v.handNumber)) = [h] := by
      rw [completions_append, hj1, hdiff]
      rfl
    have hX : ∀ t, Listener.completions (((Listener.jumpBranch v c).1 ++
        (StateDiffer.diffStates c.prevState v).map
          (fun m => Output.EVENT m v.handNumber)) ++ t) =
        [h] ++ Listener.completions t := by
      intro t
      rw [completions_append, h0]
    simp only [Listener.processStateEvent]
    split_ifs <;>
      first
        | exact Or.inr ⟨h, h0, hlt, hj2⟩
        | (right
           refine ⟨h, ?_, hlt, hj2⟩
           rw [hX]
           rfl)
        | simp_all

/-- Across any run of the dispatch machine, the hand numbers of the emitted
completions are strictly increasing in emission order, and all exceed the
starting reported-hand counter. -/
theorem runOutputs_completions (vs : List View) : ∀ c : Context,
    List.Pairwise (· < ·)
      (Listener.completions (Listener.runOutputs c vs)) ∧
    ∀ h ∈ Listener.completions (Listener.runOutputs c vs),
      c.lastReportedHand < h := by
  induction vs with
  | nil =>
    intro c
    exact ⟨by simp [Listener.runOutputs, Listener.completions], by
      intro h hh
      simp [Listener.runOutputs, Listener.completions] at hh⟩
  | cons v vs ih =>
    intro c
    have hrun : Listener.runOutputs c (v :: vs) =
        (Listener.processStateEvent v c).1 ++
          Listener.runOutputs (Listener.processStateEvent v c).2 vs := rfl
    have hrest := ih (Listener.processStateEvent v c).2
    rw [hrun, completions_append]
    rcases processStateEvent_completions v c with ⟨h1, h2⟩ | ⟨h, h1, hlt, h2⟩
    · rw [h1, List.nil_append]
      refine ⟨hrest.1, ?_⟩
      intro x hx
      have hx2 := hrest.2 x hx
      omega
    · rw [h1, List.singleton_append]
      refine ⟨List.pairwise_cons.mpr ⟨?_, hrest.1⟩, ?_⟩
      · intro x hx
        have hx2 := hrest.2 x hx
        omega
      · intro x hx
        rcases List.mem_cons.mp hx with rfl | hx'
        · exact hlt
        · have hx2 := hrest.2 x hx'
          omega

/-- Every call's outputs start with the jump-branch and differ outputs. -/
theorem processStateEvent_outputs_prefix (v : View) (c : Context) :
    ∃ t, (Listener.processStateEvent v c).1 =
      ((Listener.jumpBranch v c).1 ++
        (StateDiffer.diffStates c.prevState v).map
          (fun m => Output.EVENT m v.handNumber)) ++ t := by
  simp only [Listener.processStateEvent]
  split_ifs <;>
    first
      | exact ⟨_, rfl⟩
      | exact ⟨[], (List.append_nil _).symm⟩

/-- Claim C1: across any snapshot sequence processed through one context,
the hand numbers of the HAND_RESULT / REBUY_AVAILABLE outputs are strictly
increasing in emission order — so no hand is ever reported twice, by either
detection path; and each path fires when it observes an unreported
completion first: the hand-number-jump path when the hand number changed
with the old hand unreported, the phase-based path when an active phase
moved to SHOWDOWN/WAITING off-turn with the hand unreported. -/
theorem hand_completion_exactly_once (c : Context) (vs : List View)
    (d : Context) (v : View) (p : View) :
    List.Pairwise (· < ·)
      (Listener.completions (Listener.runOutputs c vs))
  ∧ (d.prevState = some p → p.handNumber ≠ v.handNumber →
      d.lastReportedHand < p.handNumber →
      p.handNumber ∈ Listener.completions (Listener.processStateEvent v d).1)
  ∧ ((Listener.handChanged v d = false ∧
        Listener.activePrev d.prevPhase = true ∧
        (v.phase = "SHOWDOWN" ∨ v.phase = "WAITING")) →
      v.isYourTurn = false → d.lastReportedHand < v.handNumber →
      v.handNumber ∈
        Listener.completions (Listener.processStateEvent v d).1) := by
  refine ⟨(runOutputs_completions vs c).1, ?_, ?_⟩
  · intro hprev hne hgt
    have hjc : Listener.completions (Listener.jumpBranch v d).1 =
        [p.handNumber] := by
      unfold Listener.jumpBranch
      rw [hprev]
      dsimp only
      rw [if_pos ⟨hne, hgt⟩, completions_append]
      split_ifs
      · rw [completions_map_events]
        rfl
      · rfl
    obtain ⟨t, ht⟩ := processStateEvent_outputs_prefix v d
    rw [ht, completions_append, completions_append, hjc]
    simp
  · intro hg ht hlt
    have hjz := handChanged_false_jump v d hg.1
    simp only [Listener.processStateEvent, hjz]
    split_ifs
    rotate_left 2
    all_goals simp_all
    all_goals rw [completions_append]
    all_goals rw [completions_diff_events]
    all_goals simp [Listener.completions]

/-- Witness for C1: a concrete four-snapshot trace reports hands 3 (phase
path) and 4 (jump path) exactly once each, in increasing order; and each
detection path fires at a concrete observing call. -/
theorem hand_completion_exactly_once_witness :
    Listener.completions (Listener.runOutputs initialContext
      [h3Flop, h3Waiting, h4Preflop, h5Flop]) = [3, 4]
  ∧ List.Pairwise (· < ·) (Listener.completions (Listener.runOutputs
      initialContext [h3Flop, h3Waiting, h4Preflop, h5Flop]))
  ∧ (4 : Nat) ∈ Listener.completions
      (Listener.processStateEvent h5Flop jumpCtx).1
  ∧ (3 : Nat) ∈ Listener.completions
      (Listener.processStateEvent h3Waiting endCtx).1 := by
  refine ⟨by decide,
    (hand_completion_exactly_once initialContext
      [h3Flop, h3Waiting, h4Preflop, h5Flop] jumpCtx h5Flop h4Preflop).1,
    (hand_completion_exactly_once initialContext
      [h3Flop, h3Waiting, h4Preflop, h5Flop] jumpCtx h5Flop h4Preflop).2.1
      rfl (by decide) (by decide),
    (hand_completion_exactly_once initialContext
      [h3Flop, h3Waiting, h4Preflop, h5Flop] endCtx h3Waiting h3Waiting).2.2
      ⟨by decide, by decide, Or.inr rfl⟩ rfl (by decide)⟩
